import Mathlib

/-!
Verification of the participation-query core of `course/enrollment.py`
(lexer table `_LEX_TABLE`, precedence-climbing parser `parse_query` /
`inner_parse` / `parse_terminal`, and the multi-line query executor
`query_participations`).

Conventions of the embedding:
* Django `Q` objects become the `Query` tree; their evaluation against a
  single participant follows the documented ORM semantics for conditions in
  one `filter` call (conditions spanning a multi-valued relation address the
  same related row, so `Q(flow_sessions__flow_id=f) & Q(flow_sessions__course=c)`
  is one relational-existence condition, and `~` is logical negation of it).
* A `ParticipationTag` primary key is modelled by the pair
  `(course, name)` that uniquely identifies the row.
* The regex character classes are modelled on their ASCII fragment
  (`\w` = letter, digit or underscore).
* Recursion in the lexer loop and in the parser is made structural with a
  fuel argument; the fuel supplied is always sufficient because every lexer
  step consumes at least one character and every parser step at most two
  calls per consumed token are made.
-/

/-- Token kinds: the interned tag constants of the source
(`_and`, `_or`, `_not`, `_openpar`, `_closepar`, the ten terminal kinds and
`_whitespace`). -/
inductive Tag where
  | and | or | not | openpar | closepar
  | id | email | email_contains | user | user_contains
  | tagged | role | status | has_started | has_submitted
  | whitespace
deriving DecidableEq, Repr

/-- A lexed token: its kind together with the single capture group of its
pattern (empty for keywords, parens and whitespace). -/
structure Token where
  tag : Tag
  capture : String
deriving DecidableEq, Repr

/-- ASCII fragment of the regex class `\w`. -/
def isWordChar (c : Char) : Bool := c.isAlphanum || c = '_'

/-- Python whitespace, the class `[ \t\n\r\f\v]` (`\x0b` = `\v`, `\x0c` = `\f`). -/
def isPySpace (c : Char) : Bool :=
  c = ' ' || c = '\t' || c = '\n' || c = '\r' || c = '\x0b' || c = '\x0c'

/-- The class `[^ \t\n\r\f\v)]` used by the `email:`, `email-contains:`,
`username:` and `username-contains:` patterns. -/
def isEmailChar (c : Char) : Bool := !(isPySpace c || c = ')')

/-- The class `[-\w]` of the `tagged:` pattern. -/
def isTagChar (c : Char) : Bool := c = '-' || isWordChar c

/-- The class `[-_\w]` of the `has-started:` / `has-submitted:` patterns. -/
def isFlowChar (c : Char) : Bool := c = '-' || c = '_' || isWordChar c

/-- Anchored match of a keyword pattern `kw\b`: the literal characters of
`kw` followed by a word boundary (end of input or a non-word character).
Returns the (empty) capture and the unconsumed rest. -/
def matchKeywordB (kw : List Char) (cs : List Char) : Option (String × List Char) :=
  if kw.isPrefixOf cs then
    match cs.drop kw.length with
    | [] => some ("", [])
    | c :: rest => if isWordChar c then none else some ("", c :: rest)
  else none

/-- Anchored match of a literal pattern (the parens). -/
def matchLit (lit : List Char) (cs : List Char) : Option (String × List Char) :=
  if lit.isPrefixOf cs then some ("", cs.drop lit.length) else none

/-- Anchored match of a pattern of shape `lit(cls+)`: the literal prefix and
then a greedy, nonempty capture of characters of the class `cls`. -/
def matchCap (pre : List Char) (cls : Char → Bool) (cs : List Char) :
    Option (String × List Char) :=
  if pre.isPrefixOf cs then
    let rest := cs.drop pre.length
    let cap := rest.takeWhile cls
    if cap.isEmpty then none else some (String.mk cap, rest.drop cap.length)
  else none

/-- Anchored match of the whitespace pattern `[ \t]+`. -/
def matchWs (cs : List Char) : Option (String × List Char) :=
  let cap := cs.takeWhile (fun c => c = ' ' || c = '\t')
  if cap.isEmpty then none else some (String.mk cap, cs.drop cap.length)

/-- `_LEX_TABLE`: the ordered rows `(kind, pattern)` of the source, with each
regex rendered as an anchored matcher. -/
def _LEX_TABLE : List (Tag × (List Char → Option (String × List Char))) :=
  [ (Tag.and, matchKeywordB "and".toList),
    (Tag.or, matchKeywordB "or".toList),
    (Tag.not, matchKeywordB "not".toList),
    (Tag.openpar, matchLit "(".toList),
    (Tag.closepar, matchLit ")".toList),
    (Tag.id, matchCap "id:".toList Char.isDigit),
    (Tag.email, matchCap "email:".toList isEmailChar),
    (Tag.email_contains, matchCap "email-contains:".toList isEmailChar),
    (Tag.user, matchCap "username:".toList isEmailChar),
    (Tag.user_contains, matchCap "username-contains:".toList isEmailChar),
    (Tag.tagged, matchCap "tagged:".toList isTagChar),
    (Tag.role, matchCap "role:".toList isWordChar),
    (Tag.status, matchCap "status:".toList isWordChar),
    (Tag.has_started, matchCap "has-started:".toList isFlowChar),
    (Tag.has_submitted, matchCap "has-submitted:".toList isFlowChar),
    (Tag.whitespace, matchWs) ]

/-- Try the rows of a lex table at the current position in order; the first
row whose pattern matches wins. -/
def firstMatch (cs : List Char) :
    List (Tag × (List Char → Option (String × List Char))) →
    Option (Tag × String × List Char)
  | [] => none
  | (t, m) :: rows =>
    match m cs with
    | some (cap, rest) => some (t, cap, rest)
    | none => firstMatch cs rows

/-- One step of the `pytools.lex` loop over `_LEX_TABLE`. -/
def lexStep (cs : List Char) : Option (Tag × String × List Char) :=
  firstMatch cs _LEX_TABLE

/-- The lexer loop: repeat `lexStep` until the input is exhausted; a position
where no pattern matches is a lex error.  Every pattern consumes at least one
character, so fuel `cs.length + 1` always suffices. -/
def lexAll : Nat → List Char → Except String (List Token)
  | _, [] => .ok []
  | 0, _ => .error "lexer out of fuel"
  | fuel + 1, cs =>
    match lexStep cs with
    | none => .error "invalid token"
    | some (t, cap, rest) =>
      match lexAll fuel rest with
      | .error e => .error e
      | .ok toks => .ok ({ tag := t, capture := cap } :: toks)

/-- `lex(_LEX_TABLE, expr_str, match_objects=True)`. -/
def tokenize (s : String) : Except String (List Token) :=
  lexAll (s.toList.length + 1) s.toList

/-- Operator precedence constants of the source. -/
def _PREC_OR : Nat := 10

/-- See `_PREC_OR`. -/
def _PREC_AND : Nat := 20

/-- See `_PREC_OR`. -/
def _PREC_NOT : Nat := 30

/-- The token kinds the implicit-`and` lookahead of `inner_parse` checks,
exactly the list `_TERMINALS` of the source (it has eight entries;
`_has_started` and `_has_submitted` are absent from it). -/
def _TERMINALS : List Tag :=
  [Tag.id, Tag.email, Tag.email_contains, Tag.user, Tag.user_contains,
   Tag.tagged, Tag.role, Tag.status]

/-- The predicate tree built by the parser: the Django `Q` objects of the
source.  A terminal carries the comparison of `parse_terminal`; the two
relational terminals stand for the conjunction of related-field conditions
made in one `filter` call (`flow_sessions__flow_id=F` together with
`flow_sessions__course=course`, plus `flow_sessions__in_progress=False`
for `has-submitted:`), which addresses one related row. -/
inductive Query where
  | qand : Query → Query → Query
  | qor : Query → Query → Query
  | qnot : Query → Query
  | user_id : Nat → Query
  | email_iexact : String → Query
  | email_icontains : String → Query
  | username_exact : String → Query
  | username_contains : String → Query
  | tags_pk : Nat × String → Query
  | role : String → Query
  | status : String → Query
  | has_started : String → Query
  | has_submitted : String → Query
deriving DecidableEq, Repr

/-- Python `int(str)` on the captures handed over by the lexer: defined
(the digits' value) exactly on nonempty all-digit strings, `none` standing
for the `ValueError` that `int` raises otherwise. -/
def strToNat (s : String) : Option Nat :=
  if s.toList ≠ [] ∧ s.toList.all Char.isDigit then
    some (s.toList.foldl (fun n c => 10 * n + (c.toNat - '0'.toNat)) 0)
  else none

/-- The set of `ParticipationTag` rows; a row's primary key is modelled by
the pair `(course, name)` that uniquely identifies it. -/
abbrev TagStore := List (Nat × String)

/-- `ParticipationTag.objects.get_or_create(course=course, name=name)`:
return the (modelled) primary key, inserting the row first when absent. -/
def get_or_create (course : Nat) (name : String) (store : TagStore) :
    (Nat × String) × TagStore :=
  if store.contains (course, name) then ((course, name), store)
  else ((course, name), store ++ [(course, name)])

/-- Result type of the parsing functions: on success the built query, the
tag store after any `get_or_create` side effects, and the unconsumed
tokens; on failure the error message together with the tag store (tag
creation performed before the failure persists, since the surrounding
view catches the exception and the transaction commits). -/
abbrev PResult := Except (String × TagStore) (Query × TagStore × List Token)

/-- `parse_terminal(pstate)`: turn the next token into a `Q` object and
advance past it; any other token kind is "expected terminal". -/
def parse_terminal (course : Nat) (store : TagStore) : List Token → PResult
  | [] => .error ("expected terminal, unexpected end of input", store)
  | t :: rest =>
    match t.tag with
    | .id =>
      match strToNat t.capture with
      | some n => .ok (.user_id n, store, rest)
      | none => .error ("invalid literal for int()", store)
    | .email => .ok (.email_iexact t.capture, store, rest)
    | .email_contains => .ok (.email_icontains t.capture, store, rest)
    | .user => .ok (.username_exact t.capture, store, rest)
    | .user_contains => .ok (.username_contains t.capture, store, rest)
    | .tagged =>
      let r := get_or_create course t.capture store
      .ok (.tags_pk r.1, r.2, rest)
    | .role => .ok (.role t.capture, store, rest)
    | .status => .ok (.status t.capture, store, rest)
    | .has_started => .ok (.has_started t.capture, store, rest)
    | .has_submitted => .ok (.has_submitted t.capture, store, rest)
    | _ => .error ("expected terminal", store)

/-- The body of `inner_parse(pstate, min_precedence)`, with the recursion
made structural on a fuel argument.  The mode `none` parses one primary
(`not`-prefixed unary, parenthesized group, or terminal) and then extends
it; the mode `some left` is one iteration of the `while did_something`
loop: an explicit `and`/`or` of sufficient precedence, or an implicit
`and` when the next token's kind is in `_TERMINALS + [_not, _openpar]`,
extends `left`, and otherwise the loop stops. -/
def parse_climb (course : Nat) :
    Nat → Option Query → TagStore → List Token → Nat → PResult
  | 0, _, store, _, _ => .error ("parser out of fuel", store)
  | fuel + 1, none, store, toks, minPrec =>
    match toks with
    | [] => .error ("unexpected end of input", store)
    | t :: rest =>
      if t.tag = .not then
        match parse_climb course fuel none store rest _PREC_NOT with
        | .error e => .error e
        | .ok (q, store', toks') =>
          parse_climb course fuel (some (Query.qnot q)) store' toks' minPrec
      else if t.tag = .openpar then
        match parse_climb course fuel none store rest 0 with
        | .error e => .error e
        | .ok (q, store', toks') =>
          match toks' with
          | [] => .error ("expected closepar, unexpected end of input", store')
          | t2 :: toks'' =>
            if t2.tag = .closepar then
              parse_climb course fuel (some q) store' toks'' minPrec
            else .error ("expected closepar", store')
      else
        match parse_terminal course store (t :: rest) with
        | .error e => .error e
        | .ok (q, store', toks') =>
          parse_climb course fuel (some q) store' toks' minPrec
  | fuel + 1, some left, store, toks, minPrec =>
    match toks with
    | [] => .ok (left, store, [])
    | t :: rest =>
      if t.tag = .and ∧ _PREC_AND > minPrec then
        match parse_climb course fuel none store rest _PREC_AND with
        | .error e => .error e
        | .ok (right, store', toks') =>
          parse_climb course fuel (some (Query.qand left right)) store' toks' minPrec
      else if t.tag = .or ∧ _PREC_OR > minPrec then
        match parse_climb course fuel none store rest _PREC_OR with
        | .error e => .error e
        | .ok (right, store', toks') =>
          parse_climb course fuel (some (Query.qor left right)) store' toks' minPrec
      else if t.tag ∈ _TERMINALS ∨ t.tag = .not ∨ t.tag = .openpar then
        if _PREC_AND > minPrec then
          match parse_climb course fuel none store (t :: rest) _PREC_AND with
          | .error e => .error e
          | .ok (right, store', toks') =>
            parse_climb course fuel (some (Query.qand left right)) store' toks' minPrec
        else .ok (left, store, t :: rest)
      else .ok (left, store, t :: rest)

/-- Fuel sufficient for `parse_climb` on `toks`: along any call chain at
most a constant number of calls happen per consumed token. -/
def climbFuel (toks : List Token) : Nat := 4 * toks.length + 4

/-- `inner_parse(pstate, min_precedence)`. -/
def inner_parse (course : Nat) (store : TagStore) (toks : List Token)
    (minPrec : Nat) : PResult :=
  parse_climb course (climbFuel toks) none store toks minPrec

/-- `parse_query(course, expr_str)`: lex, discard whitespace tokens, fail on
an empty stream, run `inner_parse` at precedence 0 and fail on leftover
tokens. -/
def parse_query (course : Nat) (store : TagStore) (expr_str : String) :
    Except (String × TagStore) (Query × TagStore) :=
  match tokenize expr_str with
  | .error e => .error (e, store)
  | .ok toks0 =>
    let toks := toks0.filter (fun t => t.tag != Tag.whitespace)
    if toks.isEmpty then .error ("unexpected end of input", store)
    else
      match inner_parse course store toks 0 with
      | .error e => .error e
      | .ok (q, store', rest) =>
        if rest.isEmpty then .ok (q, store')
        else .error ("leftover input after completed parse", store')

/-- A row of the participant's `flow_sessions` relation (scoped fields used
by the query core). -/
structure FlowSession where
  flow_id : String
  course : Nat
  in_progress : Bool
deriving DecidableEq, Repr

/-- A `Participation` row together with the `user` fields the query core
reads.  `tags` holds the (modelled) primary keys of the associated
`ParticipationTag` rows. -/
structure Participant where
  pk : Nat
  user_id : Nat
  email : String
  username : String
  role : String
  status : String
  course : Nat
  tags : List (Nat × String)
  flow_sessions : List FlowSession
deriving DecidableEq, Repr

/-- Substring test on character lists (Python `in`, Django `contains`). -/
def listContainsSub (hay pat : List Char) : Bool :=
  hay.tails.any (fun t => pat.isPrefixOf t)

/-- Substring test on strings. -/
def strContains (hay pat : String) : Bool := listContainsSub hay.toList pat.toList

/-- Evaluation of a `Q` tree against one participant of the evaluating
course: `&`/`|`/`~` are boolean conjunction/disjunction/negation, each
terminal is the field test of the §4.4 table, and each relational terminal
is the existence of one matching `flow_sessions` row. -/
def qMatches (course : Nat) (p : Participant) : Query → Bool
  | .qand a b => qMatches course p a && qMatches course p b
  | .qor a b => qMatches course p a || qMatches course p b
  | .qnot a => !(qMatches course p a)
  | .user_id n => p.user_id == n
  | .email_iexact s => p.email.toLower == s.toLower
  | .email_icontains s => strContains p.email.toLower s.toLower
  | .username_exact s => p.username == s
  | .username_contains s => strContains p.username s
  | .tags_pk pk => p.tags.contains pk
  | .role r => p.role == r
  | .status st => p.status == st
  | .has_started f =>
    p.flow_sessions.any (fun fs => fs.flow_id == f && fs.course == course)
  | .has_submitted f =>
    p.flow_sessions.any (fun fs =>
      fs.flow_id == f && fs.course == course && fs.in_progress == false)

/-- Python `str.split("\n")` (separators split, empty parts kept). -/
def splitLinesAux : List Char → List Char → List String
  | [], acc => [String.mk acc.reverse]
  | c :: cs, acc =>
    if c = '\n' then String.mk acc.reverse :: splitLinesAux cs []
    else splitLinesAux cs (c :: acc)

/-- See `splitLinesAux`. -/
def splitLines (s : String) : List String := splitLinesAux s.toList []

/-- Python `str.strip()`: drop leading and trailing whitespace. -/
def pyStrip (s : String) : String :=
  String.mk (((s.toList.dropWhile isPySpace).reverse.dropWhile isPySpace).reverse)

/-- The per-line compilation loop of `query_participations`: enumerate the
lines, skip blank ones, `parse_query` each and `|` the results together;
the first failure aborts with the 1-based line number, the message and the
tag store reached so far. -/
def compileLines (course : Nat) :
    List String → Nat → Option Query → TagStore →
    Except (Nat × String × TagStore) (Option Query × TagStore)
  | [], _, acc, store => .ok (acc, store)
  | line :: rest, lineno, acc, store =>
    let q := pyStrip line
    if q = "" then compileLines course rest (lineno + 1) acc store
    else
      match parse_query course store q with
      | .error (msg, store') => .error (lineno + 1, msg, store')
      | .ok (sub, store') =>
        let acc' := some (match acc with
          | none => sub
          | some a => Query.qor a sub)
        compileLines course rest (lineno + 1) acc' store'

/-- The operation selector of `ParticipationQueryForm`. -/
inductive Op where
  | apply_tag | remove_tag | drop
deriving DecidableEq, Repr

/-- The store state the executor reads and writes: the `ParticipationTag`
rows and the `Participation` rows. -/
structure ExecState where
  tags : TagStore
  participants : List Participant
deriving DecidableEq, Repr

/-- What `query_participations` surfaces: an error with the 1-based failing
line number and a message, an optional matched-participant list, the count
of the "Operation successful on N participations." message when a bulk
operation ran, and the final store state. -/
structure ExecOutcome where
  error : Option (Nat × String)
  result : Option (List Participant)
  affected : Option Nat
  finalState : ExecState
deriving DecidableEq, Repr

/-- Total lexicographic comparison of strings (the `order_by` collation). -/
def listLe : List Char → List Char → Bool
  | [], _ => true
  | _ :: _, [] => false
  | a :: as, b :: bs => if a = b then listLe as bs else decide (a < b)

/-- See `listLe`. -/
def strLe (a b : String) : Bool := listLe a.toList b.toList

/-- Stable insertion of one participant into a username-sorted list. -/
def insertByUsername (p : Participant) : List Participant → List Participant
  | [] => [p]
  | q :: rest =>
    if strLe p.username q.username then p :: q :: rest
    else q :: insertByUsername p rest

/-- `order_by("user__username")` as a stable insertion sort. -/
def sortByUsername : List Participant → List Participant
  | [] => []
  | p :: rest => insertByUsername p (sortByUsername rest)

/-- `p.tags.add(ptag)` (idempotent m2m add). -/
def addTag (pk : Nat × String) (p : Participant) : Participant :=
  if p.tags.contains pk then p else { p with tags := p.tags ++ [pk] }

/-- `p.tags.remove(ptag)` (m2m disassociation). -/
def removeTag (pk : Nat × String) (p : Participant) : Participant :=
  { p with tags := p.tags.filter (fun x => x != pk) }

/-- `p.status = participation_status.dropped; p.save()`. -/
def setDropped (p : Participant) : Participant := { p with status := "dropped" }

/-- The bulk-mutation loop `for p in result: ...`: update exactly the
participants of the course matched by the predicate. -/
def updateMatched (course : Nat) (q : Query) (f : Participant → Participant)
    (ps : List Participant) : List Participant :=
  ps.map (fun p => if p.course == course && qMatches course p q then f p else p)

/-- The POST branch of `query_participations(pctx)` for a valid form:
compile every non-blank line and `|` the per-line predicates (a failure
reports "Error in line N" and skips everything else), filter the course's
participations by the combined predicate ordered by username, and when the
"apply" submit button was used run the selected bulk operation over the
matched set and report the affected count. -/
def query_participations (course : Nat) (queries : String) (op : Op)
    (tagName : String) (applyRequested : Bool) (st : ExecState) : ExecOutcome :=
  match compileLines course (splitLines queries) 0 none st.tags with
  | .error (lineno, msg, store') =>
    { error := some (lineno, msg), result := none, affected := none,
      finalState := { st with tags := store' } }
  | .ok (none, store') =>
    { error := none, result := none, affected := none,
      finalState := { st with tags := store' } }
  | .ok (some q, store') =>
    let matched := sortByUsername
      (st.participants.filter (fun p => p.course == course && qMatches course p q))
    if applyRequested then
      match op with
      | .apply_tag =>
        let r := get_or_create course tagName store'
        { error := none, result := some matched, affected := some matched.length,
          finalState := { tags := r.2,
                          participants := updateMatched course q (addTag r.1) st.participants } }
      | .remove_tag =>
        let r := get_or_create course tagName store'
        { error := none, result := some matched, affected := some matched.length,
          finalState := { tags := r.2,
                          participants := updateMatched course q (removeTag r.1) st.participants } }
      | .drop =>
        { error := none, result := some matched, affected := some matched.length,
          finalState := { tags := store',
                          participants := updateMatched course q setDropped st.participants } }
    else
      { error := none, result := some matched, affected := none,
        finalState := { st with tags := store' } }

/-! Helper lemmas.  The query and the unconsumed-token components of a
parse result do not depend on the tag store threaded through the parser
(the store only records which tags exist, and the modelled primary key of a
tag is determined by `(course, name)` alone), so parsing the same line
after different earlier side effects builds the same predicate. -/

/-- Forget the tag-store components of a parse result. -/
def peelC : PResult → Except String (Query × List Token)
  | .error (e, _) => .error e
  | .ok (q, _, r) => .ok (q, r)

lemma get_or_create_fst (c : Nat) (n : String) (s : TagStore) :
    (get_or_create c n s).1 = (c, n) := by
  unfold get_or_create; split <;> rfl

lemma mem_get_or_create_snd (c : Nat) (n : String) (s : TagStore) :
    (c, n) ∈ (get_or_create c n s).2 := by
  unfold get_or_create
  split
  · next h => exact List.mem_of_elem_eq_true h
  · exact List.mem_append_right _ (List.mem_singleton.mpr rfl)

lemma peelC_eq_cases {x y : PResult} (h : peelC x = peelC y) :
    (∃ e σ τ, x = .error (e, σ) ∧ y = .error (e, τ)) ∨
    (∃ q r σ τ, x = .ok (q, σ, r) ∧ y = .ok (q, τ, r)) := by
  match x, y with
  | .error (e, σ), .error (e', τ) =>
    left
    have he : e = e' := by simpa [peelC] using h
    exact ⟨e, σ, τ, rfl, by rw [he]⟩
  | .error (e, σ), .ok (q', τ, r') => simp [peelC] at h
  | .ok (q, σ, r), .error (e', τ) => simp [peelC] at h
  | .ok (q, σ, r), .ok (q', τ, r') =>
    right
    have h' : q = q' ∧ r = r' := by simpa [peelC] using h
    exact ⟨q, r, σ, τ, rfl, by rw [h'.1, h'.2]⟩

lemma peelC_parse_terminal (c : Nat) (toks : List Token) (s1 s2 : TagStore) :
    peelC (parse_terminal c s1 toks) = peelC (parse_terminal c s2 toks) := by
  match toks with
  | [] => rfl
  | ⟨tg, cap⟩ :: rest =>
    cases tg
    case id =>
      have h12 : ∀ s : TagStore, parse_terminal c s (⟨Tag.id, cap⟩ :: rest) =
          (match strToNat cap with
            | some n => Except.ok (Query.user_id n, s, rest)
            | none => Except.error ("invalid literal for int()", s)) := fun s => rfl
      rw [h12 s1, h12 s2]
      cases strToNat cap <;> rfl
    case tagged =>
      show Except.ok (Query.tags_pk (get_or_create c cap s1).1, rest) =
        Except.ok (Query.tags_pk (get_or_create c cap s2).1, rest)
      rw [get_or_create_fst, get_or_create_fst]
    all_goals rfl

lemma peelC_parse_climb (c : Nat) :
    ∀ fuel mq toks minPrec s1 s2,
      peelC (parse_climb c fuel mq s1 toks minPrec) =
      peelC (parse_climb c fuel mq s2 toks minPrec) := by
  intro fuel
  induction fuel with
  | zero => intro mq toks minPrec s1 s2; rfl
  | succ n ih =>
    intro mq toks minPrec s1 s2
    match mq, toks with
    | none, [] => rfl
    | none, t :: rest =>
      by_cases h1 : t.tag = Tag.not
      · simp only [parse_climb, if_pos h1]
        rcases peelC_eq_cases (ih none rest _PREC_NOT s1 s2) with
          ⟨e, σ, τ, hx, hy⟩ | ⟨q, r, σ, τ, hx, hy⟩
        · rw [hx, hy]; rfl
        · rw [hx, hy]; exact ih (some (Query.qnot q)) r minPrec σ τ
      · by_cases h2 : t.tag = Tag.openpar
        · simp only [parse_climb, if_neg h1, if_pos h2]
          rcases peelC_eq_cases (ih none rest 0 s1 s2) with
            ⟨e, σ, τ, hx, hy⟩ | ⟨q, r, σ, τ, hx, hy⟩
          · rw [hx, hy]; rfl
          · rw [hx, hy]
            match r with
            | [] => rfl
            | t2 :: r' =>
              by_cases h3 : t2.tag = Tag.closepar
              · simp only [if_pos h3]
                exact ih (some q) r' minPrec σ τ
              · simp only [if_neg h3]; rfl
        · simp only [parse_climb, if_neg h1, if_neg h2]
          rcases peelC_eq_cases (peelC_parse_terminal c (t :: rest) s1 s2) with
            ⟨e, σ, τ, hx, hy⟩ | ⟨q, r, σ, τ, hx, hy⟩
          · rw [hx, hy]; rfl
          · rw [hx, hy]; exact ih (some q) r minPrec σ τ
    | some left, [] => rfl
    | some left, t :: rest =>
      by_cases h1 : t.tag = Tag.and ∧ _PREC_AND > minPrec
      · simp only [parse_climb, if_pos h1]
        rcases peelC_eq_cases (ih none rest _PREC_AND s1 s2) with
          ⟨e, σ, τ, hx, hy⟩ | ⟨q, r, σ, τ, hx, hy⟩
        · rw [hx, hy]; rfl
        · rw [hx, hy]; exact ih (some (Query.qand left q)) r minPrec σ τ
      · by_cases h2 : t.tag = Tag.or ∧ _PREC_OR > minPrec
        · simp only [parse_climb, if_neg h1, if_pos h2]
          rcases peelC_eq_cases (ih none rest _PREC_OR s1 s2) with
            ⟨e, σ, τ, hx, hy⟩ | ⟨q, r, σ, τ, hx, hy⟩
          · rw [hx, hy]; rfl
          · rw [hx, hy]; exact ih (some (Query.qor left q)) r minPrec σ τ
        · by_cases h3 : t.tag ∈ _TERMINALS ∨ t.tag = Tag.not ∨ t.tag = Tag.openpar
          · by_cases h4 : _PREC_AND > minPrec
            · simp only [parse_climb, if_neg h1, if_neg h2, if_pos h3, if_pos h4]
              rcases peelC_eq_cases (ih none (t :: rest) _PREC_AND s1 s2) with
                ⟨e, σ, τ, hx, hy⟩ | ⟨q, r, σ, τ, hx, hy⟩
              · rw [hx, hy]; rfl
              · rw [hx, hy]; exact ih (some (Query.qand left q)) r minPrec σ τ
            · simp only [parse_climb, if_neg h1, if_neg h2, if_pos h3, if_neg h4]; rfl
          · simp only [parse_climb, if_neg h1, if_neg h2, if_neg h3]; rfl

/-- Forget the tag-store components of a `parse_query` result. -/
def peelQ : Except (String × TagStore) (Query × TagStore) → Except String Query
  | .error (e, _) => .error e
  | .ok (q, _) => .ok q

lemma peelQ_parse_query (c : Nat) (str : String) (s1 s2 : TagStore) :
    peelQ (parse_query c s1 str) = peelQ (parse_query c s2 str) := by
  unfold parse_query
  match tokenize str with
  | .error e => rfl
  | .ok toks0 =>
    by_cases he : (toks0.filter (fun t => t.tag != Tag.whitespace)).isEmpty
    · simp only [he, if_pos]; rfl
    · simp only [if_neg he]
      rcases peelC_eq_cases
          (peelC_parse_climb c (climbFuel (toks0.filter (fun t => t.tag != Tag.whitespace)))
            none (toks0.filter (fun t => t.tag != Tag.whitespace)) 0 s1 s2) with
        ⟨e, σ, τ, hx, hy⟩ | ⟨q, r, σ, τ, hx, hy⟩
      · rw [show inner_parse c s1 (toks0.filter (fun t => t.tag != Tag.whitespace)) 0 =
            parse_climb c (climbFuel (toks0.filter (fun t => t.tag != Tag.whitespace)))
              none s1 (toks0.filter (fun t => t.tag != Tag.whitespace)) 0 from rfl,
          show inner_parse c s2 (toks0.filter (fun t => t.tag != Tag.whitespace)) 0 =
            parse_climb c (climbFuel (toks0.filter (fun t => t.tag != Tag.whitespace)))
              none s2 (toks0.filter (fun t => t.tag != Tag.whitespace)) 0 from rfl,
          hx, hy]
        rfl
      · rw [show inner_parse c s1 (toks0.filter (fun t => t.tag != Tag.whitespace)) 0 =
            parse_climb c (climbFuel (toks0.filter (fun t => t.tag != Tag.whitespace)))
              none s1 (toks0.filter (fun t => t.tag != Tag.whitespace)) 0 from rfl,
          show inner_parse c s2 (toks0.filter (fun t => t.tag != Tag.whitespace)) 0 =
            parse_climb c (climbFuel (toks0.filter (fun t => t.tag != Tag.whitespace)))
              none s2 (toks0.filter (fun t => t.tag != Tag.whitespace)) 0 from rfl,
          hx, hy]
        by_cases hr : r.isEmpty <;> simp only [if_pos, if_neg, hr] <;> rfl

/-- The store-independent outcome of compiling one line: the predicate on
success, the message on failure. -/
def parseOutcome (c : Nat) (line : String) : Except String Query :=
  peelQ (parse_query c [] line)

lemma parseOutcome_spec (c : Nat) (line : String) (store : TagStore) :
    peelQ (parse_query c store line) = parseOutcome c line :=
  peelQ_parse_query c line store []

lemma peelQ_eq_cases {x y : Except (String × TagStore) (Query × TagStore)}
    (h : peelQ x = peelQ y) :
    (∃ e σ τ, x = .error (e, σ) ∧ y = .error (e, τ)) ∨
    (∃ q σ τ, x = .ok (q, σ) ∧ y = .ok (q, τ)) := by
  match x, y with
  | .error (e, σ), .error (e', τ) =>
    left
    have he : e = e' := by simpa [peelQ] using h
    exact ⟨e, σ, τ, rfl, by rw [he]⟩
  | .error (e, σ), .ok (q', τ) => simp [peelQ] at h
  | .ok (q, σ), .error (e', τ) => simp [peelQ] at h
  | .ok (q, σ), .ok (q', τ) =>
    right
    have h' : q = q' := by simpa [peelQ] using h
    exact ⟨q, σ, τ, rfl, by rw [h']⟩

lemma parse_query_ok_any_store {c : Nat} {s s' : TagStore} {line : String}
    {q : Query} (σ : TagStore) (h : parse_query c s line = .ok (q, s')) :
    ∃ τ, parse_query c σ line = .ok (q, τ) := by
  have hpeel : peelQ (parse_query c s line) = peelQ (parse_query c σ line) :=
    peelQ_parse_query c line s σ
  rw [h] at hpeel
  rcases peelQ_eq_cases hpeel with ⟨e, σ1, τ1, hx, hy⟩ | ⟨q1, σ1, τ1, hx, hy⟩
  · exact absurd hx (by simp)
  · have : q1 = q ∧ σ1 = s' := by
      constructor <;> [skip; skip] <;> cases hx <;> simp_all
    exact ⟨τ1, by rw [hy, this.1]⟩

lemma parse_query_error_any_store {c : Nat} {s s' : TagStore} {line : String}
    {msg : String} (σ : TagStore) (h : parse_query c s line = .error (msg, s')) :
    ∃ τ, parse_query c σ line = .error (msg, τ) := by
  have hpeel : peelQ (parse_query c s line) = peelQ (parse_query c σ line) :=
    peelQ_parse_query c line s σ
  rw [h] at hpeel
  rcases peelQ_eq_cases hpeel with ⟨e, σ1, τ1, hx, hy⟩ | ⟨q1, σ1, τ1, hx, hy⟩
  · have : e = msg := by cases hx; simp_all
    exact ⟨τ1, by rw [hy, this]⟩
  · exact absurd hx (by simp)

lemma parse_query_empty (c : Nat) (store : TagStore) :
    parse_query c store "" = .error ("unexpected end of input", store) := rfl

lemma mem_insertByUsername (p x : Participant) (l : List Participant) :
    x ∈ insertByUsername p l ↔ x = p ∨ x ∈ l := by
  induction l with
  | nil => simp [insertByUsername]
  | cons q rest ih =>
    by_cases h : strLe p.username q.username
    · simp [insertByUsername, h]
    · simp [insertByUsername, h, ih]
      tauto

lemma mem_sortByUsername (x : Participant) (l : List Participant) :
    x ∈ sortByUsername l ↔ x ∈ l := by
  induction l with
  | nil => simp [sortByUsername]
  | cons p rest ih => simp [sortByUsername, mem_insertByUsername, ih]

lemma parse_query_error_of_outcome {c : Nat} {line msg : String} (store : TagStore)
    (h : parseOutcome c line = .error msg) :
    ∃ τ, parse_query c store line = .error (msg, τ) := by
  unfold parseOutcome at h
  match hx : parse_query c [] line with
  | .error (e, σ) =>
    rw [hx] at h
    have he : e = msg := by simpa [peelQ] using h
    exact parse_query_error_any_store store (by rw [hx, he])
  | .ok (q, σ) => rw [hx] at h; simp [peelQ] at h

lemma parse_query_ok_of_outcome {c : Nat} {line : String} {q : Query} (store : TagStore)
    (h : parseOutcome c line = .ok q) :
    ∃ τ, parse_query c store line = .ok (q, τ) := by
  unfold parseOutcome at h
  match hx : parse_query c [] line with
  | .error (e, σ) => rw [hx] at h; simp [peelQ] at h
  | .ok (q', σ) =>
    rw [hx] at h
    have he : q' = q := by simpa [peelQ] using h
    exact parse_query_ok_any_store store (by rw [hx, he])

lemma compileLines_all_blank (c : Nat) :
    ∀ (lines : List String) (lineno : Nat) (acc : Option Query) (store : TagStore),
      (∀ l ∈ lines, pyStrip l = "") →
      compileLines c lines lineno acc store = .ok (acc, store) := by
  intro lines
  induction lines with
  | nil => intro lineno acc store _; rfl
  | cons l rest ih =>
    intro lineno acc store h
    have hl : pyStrip l = "" := h l (List.mem_cons_self _ _)
    simp only [compileLines, hl, if_pos]
    exact ih (lineno + 1) acc store (fun x hx => h x (List.mem_cons_of_mem _ hx))

lemma compileLines_error_of_prefix (c : Nat) :
    ∀ (good : List String) (bad : String) (rest : List String)
      (lineno : Nat) (acc : Option Query) (store : TagStore) (msg : String),
      (∀ l ∈ good, pyStrip l = "" ∨ ∃ q, parseOutcome c (pyStrip l) = .ok q) →
      pyStrip bad ≠ "" → parseOutcome c (pyStrip bad) = .error msg →
      ∃ σ, compileLines c (good ++ bad :: rest) lineno acc store =
        .error (lineno + good.length + 1, msg, σ) := by
  intro good
  induction good with
  | nil =>
    intro bad rest lineno acc store msg _ hbadne hbad
    obtain ⟨τ, hτ⟩ := parse_query_error_of_outcome store hbad
    refine ⟨τ, ?_⟩
    simp only [List.nil_append, compileLines, if_neg hbadne, hτ, List.length_nil]
  | cons l good' ih =>
    intro bad rest lineno acc store msg hgood hbadne hbad
    rcases hgood l (List.mem_cons_self _ _) with hl | ⟨q, hq⟩
    · obtain ⟨σ, hσ⟩ := ih bad rest (lineno + 1) acc store msg
        (fun x hx => hgood x (List.mem_cons_of_mem _ hx)) hbadne hbad
      refine ⟨σ, ?_⟩
      rw [show lineno + (l :: good').length + 1 = lineno + 1 + good'.length + 1 by
        simp only [List.length_cons]; omega]
      simp only [List.cons_append, compileLines, hl, if_pos]
      exact hσ
    · have hlne : pyStrip l ≠ "" := by
        intro hcon
        rw [hcon] at hq
        have : parseOutcome c "" = Except.error "unexpected end of input" := by
          unfold parseOutcome
          rw [parse_query_empty]
          rfl
        rw [this] at hq
        exact Except.noConfusion hq
      obtain ⟨τ, hτ⟩ := parse_query_ok_of_outcome store hq
      obtain ⟨σ, hσ⟩ := ih bad rest (lineno + 1)
        (some (match acc with | none => q | some a => Query.qor a q)) τ msg
        (fun x hx => hgood x (List.mem_cons_of_mem _ hx)) hbadne hbad
      refine ⟨σ, ?_⟩
      rw [show lineno + (l :: good').length + 1 = lineno + 1 + good'.length + 1 by
        simp only [List.length_cons]; omega]
      simp only [List.cons_append, compileLines, if_neg hlne, hτ]
      exact hσ

lemma compileLines_one (c : Nat) (Q1 : String) (q1 : Query) (s0 s1 : TagStore)
    (hstrip1 : pyStrip Q1 = Q1) (hne1 : Q1 ≠ "")
    (h1 : parse_query c s0 Q1 = .ok (q1, s1)) :
    compileLines c [Q1] 0 none s0 = .ok (some q1, s1) := by
  simp only [compileLines, hstrip1, if_neg hne1, h1]

lemma compileLines_two (c : Nat) (Q1 Q2 : String) (q1 q2 : Query)
    (s0 s1 s2 : TagStore)
    (hstrip1 : pyStrip Q1 = Q1) (hstrip2 : pyStrip Q2 = Q2)
    (hne1 : Q1 ≠ "") (hne2 : Q2 ≠ "")
    (h1 : parse_query c s0 Q1 = .ok (q1, s1))
    (h2 : parse_query c s1 Q2 = .ok (q2, s2)) :
    compileLines c [Q1, Q2] 0 none s0 = .ok (some (Query.qor q1 q2), s2) := by
  simp only [compileLines, hstrip1, hstrip2, if_neg hne1, if_neg hne2, h1, h2]

lemma parse_query_ne_empty {c : Nat} {s s' : TagStore} {line : String} {q : Query}
    (h : parse_query c s line = .ok (q, s')) : line ≠ "" := by
  intro hcon
  rw [hcon, parse_query_empty] at h
  exact Except.noConfusion h

lemma map_eq_self_of_mem {α : Type} {f : α → α} :
    ∀ {l : List α}, (∀ a ∈ l, f a = a) → l.map f = l := by
  intro l
  induction l with
  | nil => intro _; rfl
  | cons a l ih =>
    intro h
    simp only [List.map_cons, h a (List.mem_cons_self _ _),
      ih (fun x hx => h x (List.mem_cons_of_mem _ hx))]

/-- C1: the spec says an implicit `and` is inserted whenever the next token
starts a new primary — any of the 10 terminal kinds (explicitly including
`has-started:` and `has-submitted:`), `not`, or `(`.  The code's lookahead
list `_TERMINALS` omits `_has_started` and `_has_submitted`, so
`role:student has-started:quiz` is not extended by an implicit `and`: the
parse stops after `role:student` and `parse_query` raises "leftover input",
while the explicit form `role:student and has-started:quiz` parses fine and
implicit `and` works for the eight listed kinds (e.g. `tagged:`). -/
theorem implicit_and_misses_relational_terminals :
    parse_query 1 [] "role:student has-started:quiz" =
      .error ("leftover input after completed parse", []) ∧
    parse_query 1 [] "role:student has-submitted:quiz" =
      .error ("leftover input after completed parse", []) ∧
    parse_query 1 [] "role:student and has-started:quiz" =
      .ok (Query.qand (Query.role "student") (Query.has_started "quiz"), []) ∧
    parse_query 1 [] "role:student tagged:foo" =
      parse_query 1 [] "role:student and tagged:foo" ∧
    Tag.has_started ∉ _TERMINALS ∧ Tag.has_submitted ∉ _TERMINALS :=
  ⟨rfl, rfl, rfl, rfl, by decide, by decide⟩

/-- C4: precedence is NOT over AND over OR.  The query
`role:student and not status:active or tagged:foo` parses to
`(role:student AND (NOT status:active)) OR tagged:foo`; that tree evaluates
on every participant to the corresponding boolean expression and is not
semantically equal to `role:student AND ((NOT status:active) OR tagged:foo)`;
and `not` binds only its immediate unary, so `not status:active and
role:student` parses as `(not status:active) and role:student`. -/
theorem precedence_not_and_or :
    parse_query 1 [] "role:student and not status:active or tagged:foo" =
      .ok (Query.qor
        (Query.qand (Query.role "student") (Query.qnot (Query.status "active")))
        (Query.tags_pk (1, "foo")), [(1, "foo")]) ∧
    (∀ p : Participant,
      qMatches 1 p (Query.qor
        (Query.qand (Query.role "student") (Query.qnot (Query.status "active")))
        (Query.tags_pk (1, "foo"))) =
      ((p.role == "student") && !(p.status == "active") || p.tags.contains (1, "foo"))) ∧
    ¬ (∀ p : Participant,
      qMatches 1 p (Query.qor
        (Query.qand (Query.role "student") (Query.qnot (Query.status "active")))
        (Query.tags_pk (1, "foo"))) =
      qMatches 1 p (Query.qand (Query.role "student")
        (Query.qor (Query.qnot (Query.status "active")) (Query.tags_pk (1, "foo"))))) ∧
    parse_query 1 [] "not status:active and role:student" =
      .ok (Query.qand (Query.qnot (Query.status "active")) (Query.role "student"), []) := by
  refine ⟨rfl, fun p => rfl, fun h => ?_, rfl⟩
  have hc := h { pk := 0, user_id := 0, email := "", username := "", role := "observer",
                 status := "dropped", course := 1, tags := [(1, "foo")],
                 flow_sessions := [] }
  exact absurd hc (by decide)

/-- C8: `parse_query` fails with a parse error, never a partial predicate,
when the whitespace-filtered token stream is empty, on an unmatched or
missing `)`, and on the example inputs of the spec (`(`,
`role:student role:student and`); `role:student)` exercises the
leftover-input check proper. -/
theorem parse_query_error_cases (c : Nat) (store : TagStore) (s : String)
    (toks : List Token) (htok : tokenize s = .ok toks)
    (hempty : toks.filter (fun t => t.tag != Tag.whitespace) = []) :
    parse_query c store s = .error ("unexpected end of input", store) ∧
    parse_query c store "(" = .error ("unexpected end of input", store) ∧
    parse_query c store "(role:student" =
      .error ("expected closepar, unexpected end of input", store) ∧
    parse_query c store "role:student)" =
      .error ("leftover input after completed parse", store) ∧
    parse_query c store "role:student role:student and" =
      .error ("unexpected end of input", store) := by
  refine ⟨?_, rfl, rfl, rfl, rfl⟩
  unfold parse_query
  rw [htok]
  simp only [hempty]
  rfl

/-- Witness for C8 at the whitespace-only input `" "`. -/
theorem parse_query_error_cases_witness :
    tokenize " " = .ok [{ tag := Tag.whitespace, capture := " " }] ∧
    parse_query 1 [] " " = .error ("unexpected end of input", []) :=
  ⟨rfl,
   (parse_query_error_cases 1 [] " " [{ tag := Tag.whitespace, capture := " " }]
     rfl (by decide)).1⟩

/-- C10: when every line of the submitted block is blank or whitespace-only
the executor reports no error, surfaces no result list, applies no bulk
operation and leaves the store untouched. -/
theorem all_blank_lines_noop (c : Nat) (st : ExecState) (queries : String)
    (op : Op) (tg : String) (applyRequested : Bool)
    (hblank : ∀ l ∈ splitLines queries, pyStrip l = "") :
    query_participations c queries op tg applyRequested st =
      { error := none, result := none, affected := none, finalState := st } := by
  unfold query_participations
  rw [compileLines_all_blank c (splitLines queries) 0 none st.tags hblank]

/-- Witness for C10 at the block of three blank lines. -/
theorem all_blank_lines_noop_witness :
    (∀ l ∈ splitLines "\n \n\t", pyStrip l = "") ∧
    query_participations 1 "\n \n\t" Op.drop "x" true
        { tags := [], participants := [] } =
      { error := none, result := none, affected := none,
        finalState := { tags := [], participants := [] } } :=
  ⟨by decide,
   all_blank_lines_noop 1 { tags := [], participants := [] } "\n \n\t" Op.drop "x" true
     (by decide)⟩

/-- C3: submitting the two-line block `Q1\nQ2` compiles each line
independently, combines the per-line predicates with `Or` into one
top-level predicate, and the matched set is exactly the union of the sets
matched by `Q1` alone and by `Q2` alone. -/
theorem multiline_union (c : Nat) (st : ExecState) (Q1 Q2 : String)
    (q1 q2 : Query) (s1 s2 : TagStore) (op : Op) (tg : String)
    (hsplit : splitLines (Q1 ++ "\n" ++ Q2) = [Q1, Q2])
    (hone1 : splitLines Q1 = [Q1]) (hone2 : splitLines Q2 = [Q2])
    (hstrip1 : pyStrip Q1 = Q1) (hstrip2 : pyStrip Q2 = Q2)
    (h1 : parse_query c st.tags Q1 = .ok (q1, s1))
    (h2 : parse_query c st.tags Q2 = .ok (q2, s2)) :
    ∃ (σ : TagStore) (r r1 r2 : List Participant),
      compileLines c (splitLines (Q1 ++ "\n" ++ Q2)) 0 none st.tags =
        .ok (some (Query.qor q1 q2), σ) ∧
      (query_participations c (Q1 ++ "\n" ++ Q2) op tg false st).result = some r ∧
      (query_participations c Q1 op tg false st).result = some r1 ∧
      (query_participations c Q2 op tg false st).result = some r2 ∧
      (∀ p : Participant, p ∈ r ↔ p ∈ r1 ∨ p ∈ r2) := by
  obtain ⟨s2', h2'⟩ := parse_query_ok_any_store s1 h2
  have hne1 : Q1 ≠ "" := parse_query_ne_empty h1
  have hne2 : Q2 ≠ "" := parse_query_ne_empty h2
  have hcomb : compileLines c [Q1, Q2] 0 none st.tags =
      .ok (some (Query.qor q1 q2), s2') :=
    compileLines_two c Q1 Q2 q1 q2 st.tags s1 s2' hstrip1 hstrip2 hne1 hne2 h1 h2'
  have hc1 : compileLines c [Q1] 0 none st.tags = .ok (some q1, s1) :=
    compileLines_one c Q1 q1 st.tags s1 hstrip1 hne1 h1
  have hc2 : compileLines c [Q2] 0 none st.tags = .ok (some q2, s2) :=
    compileLines_one c Q2 q2 st.tags s2 hstrip2 hne2 h2
  refine ⟨s2',
    sortByUsername (st.participants.filter
      (fun p => p.course == c && qMatches c p (Query.qor q1 q2))),
    sortByUsername (st.participants.filter
      (fun p => p.course == c && qMatches c p q1)),
    sortByUsername (st.participants.filter
      (fun p => p.course == c && qMatches c p q2)),
    by rw [hsplit]; exact hcomb, ?_, ?_, ?_, ?_⟩
  · unfold query_participations
    rw [hsplit, hcomb]
    rfl
  · unfold query_participations
    rw [hone1, hc1]
    rfl
  · unfold query_participations
    rw [hone2, hc2]
    rfl
  · intro p
    simp only [mem_sortByUsername, List.mem_filter]
    have hdis : (p.course == c && qMatches c p (Query.qor q1 q2)) =
        ((p.course == c && qMatches c p q1) || (p.course == c && qMatches c p q2)) := by
      show (p.course == c && (qMatches c p q1 || qMatches c p q2)) = _
      cases p.course == c <;> cases qMatches c p q1 <;> cases qMatches c p q2 <;> rfl
    rw [hdis]
    simp only [Bool.or_eq_true]
    tauto

/-- Witness for C3 at `role:student` / `status:active` over a two-member
roster. -/
theorem multiline_union_witness :
    (splitLines ("role:student" ++ "\n" ++ "status:active") =
      ["role:student", "status:active"]) ∧
    (∃ (σ : TagStore) (r r1 r2 : List Participant),
      compileLines 1 (splitLines ("role:student" ++ "\n" ++ "status:active")) 0 none
          ({ tags := [],
             participants :=
               [{ pk := 1, user_id := 1, email := "a@x", username := "a",
                  role := "student", status := "dropped", course := 1,
                  tags := [], flow_sessions := [] },
                { pk := 2, user_id := 2, email := "b@x", username := "b",
                  role := "observer", status := "active", course := 1,
                  tags := [], flow_sessions := [] }] } : ExecState).tags =
        .ok (some (Query.qor (Query.role "student") (Query.status "active")), σ) ∧
      (query_participations 1 ("role:student" ++ "\n" ++ "status:active") Op.drop ""
        false
        { tags := [],
          participants :=
            [{ pk := 1, user_id := 1, email := "a@x", username := "a",
               role := "student", status := "dropped", course := 1,
               tags := [], flow_sessions := [] },
             { pk := 2, user_id := 2, email := "b@x", username := "b",
               role := "observer", status := "active", course := 1,
               tags := [], flow_sessions := [] }] }).result = some r ∧
      (query_participations 1 "role:student" Op.drop "" false
        { tags := [],
          participants :=
            [{ pk := 1, user_id := 1, email := "a@x", username := "a",
               role := "student", status := "dropped", course := 1,
               tags := [], flow_sessions := [] },
             { pk := 2, user_id := 2, email := "b@x", username := "b",
               role := "observer", status := "active", course := 1,
               tags := [], flow_sessions := [] }] }).result = some r1 ∧
      (query_participations 1 "status:active" Op.drop "" false
        { tags := [],
          participants :=
            [{ pk := 1, user_id := 1, email := "a@x", username := "a",
               role := "student", status := "dropped", course := 1,
               tags := [], flow_sessions := [] },
             { pk := 2, user_id := 2, email := "b@x", username := "b",
               role := "observer", status := "active", course := 1,
               tags := [], flow_sessions := [] }] }).result = some r2 ∧
      (∀ p : Participant, p ∈ r ↔ p ∈ r1 ∨ p ∈ r2)) :=
  ⟨by decide,
   multiline_union 1
     { tags := [],
       participants :=
         [{ pk := 1, user_id := 1, email := "a@x", username := "a",
            role := "student", status := "dropped", course := 1,
            tags := [], flow_sessions := [] },
          { pk := 2, user_id := 2, email := "b@x", username := "b",
            role := "observer", status := "active", course := 1,
            tags := [], flow_sessions := [] }] }
     "role:student" "status:active" (Query.role "student") (Query.status "active")
     [] [] Op.drop "" (by decide) (by decide) (by decide) (by decide) (by decide)
     rfl rfl⟩

/-- C5: a failure while compiling any one line of the block aborts the
whole submission: the error names the 1-based number of the first failing
line, no result list is surfaced (so no partial union is used for
filtering), and no bulk mutation touches the participants. -/
theorem line_failure_aborts (c : Nat) (st : ExecState) (queries : String)
    (good : List String) (bad : String) (rest : List String)
    (op : Op) (tg : String) (applyRequested : Bool) (msg : String)
    (hsplit : splitLines queries = good ++ bad :: rest)
    (hgood : ∀ l ∈ good, pyStrip l = "" ∨ ∃ q, parseOutcome c (pyStrip l) = .ok q)
    (hbadne : pyStrip bad ≠ "")
    (hbad : parseOutcome c (pyStrip bad) = .error msg) :
    (query_participations c queries op tg applyRequested st).error =
      some (good.length + 1, msg) ∧
    (query_participations c queries op tg applyRequested st).result = none ∧
    (query_participations c queries op tg applyRequested st).affected = none ∧
    (query_participations c queries op tg applyRequested st).finalState.participants =
      st.participants := by
  obtain ⟨σ, hσ⟩ :=
    compileLines_error_of_prefix c good bad rest 0 none st.tags msg hgood hbadne hbad
  rw [show (0 : Nat) + good.length + 1 = good.length + 1 by omega] at hσ
  unfold query_participations
  rw [hsplit, hσ]
  exact ⟨rfl, rfl, rfl, rfl⟩

/-- Witness for C5: the second line of `role:student\n)(\nrole:x` fails to
parse and the whole three-line submission is aborted. -/
theorem line_failure_aborts_witness :
    (splitLines "role:student\n)(\nrole:x" = ["role:student"] ++ ")(" :: ["role:x"]) ∧
    (query_participations 1 "role:student\n)(\nrole:x" Op.drop "" true
      { tags := [], participants := [] }).error =
      some (["role:student"].length + 1, "expected terminal") ∧
    (query_participations 1 "role:student\n)(\nrole:x" Op.drop "" true
      { tags := [], participants := [] }).result = none :=
  ⟨by decide,
   (line_failure_aborts 1 { tags := [], participants := [] }
     "role:student\n)(\nrole:x" ["role:student"] ")(" ["role:x"] Op.drop "" true
     "expected terminal" (by decide)
     (fun l hl => by
       rcases List.mem_singleton.mp hl with rfl
       exact Or.inr ⟨Query.role "student", rfl⟩)
     (by decide) rfl).1,
   (line_failure_aborts 1 { tags := [], participants := [] }
     "role:student\n)(\nrole:x" ["role:student"] ")(" ["role:x"] Op.drop "" true
     "expected terminal" (by decide)
     (fun l hl => by
       rcases List.mem_singleton.mp hl with rfl
       exact Or.inr ⟨Query.role "student", rfl⟩)
     (by decide) rfl).2.1⟩

/-- C2: over a relational-existence terminal, `not` is the logical negation
of "some flow-session row satisfies the condition": `not has-started:F`
(resp. `not has-submitted:F`) parses to `~Q` and matches a participant
exactly when no flow-session record of theirs satisfies the terminal's
condition, and `not not t` parses to `~~Q` and matches exactly the same
participants as `t`. -/
theorem not_of_relational_existence (c : Nat) (store : TagStore) (F : String)
    (h1 : tokenize ("not has-started:" ++ F) = .ok
      [{ tag := Tag.not, capture := "" }, { tag := Tag.whitespace, capture := " " },
       { tag := Tag.has_started, capture := F }])
    (h2 : tokenize ("not not has-started:" ++ F) = .ok
      [{ tag := Tag.not, capture := "" }, { tag := Tag.whitespace, capture := " " },
       { tag := Tag.not, capture := "" }, { tag := Tag.whitespace, capture := " " },
       { tag := Tag.has_started, capture := F }])
    (h3 : tokenize ("not has-submitted:" ++ F) = .ok
      [{ tag := Tag.not, capture := "" }, { tag := Tag.whitespace, capture := " " },
       { tag := Tag.has_submitted, capture := F }])
    (h4 : tokenize ("not not has-submitted:" ++ F) = .ok
      [{ tag := Tag.not, capture := "" }, { tag := Tag.whitespace, capture := " " },
       { tag := Tag.not, capture := "" }, { tag := Tag.whitespace, capture := " " },
       { tag := Tag.has_submitted, capture := F }]) :
    (parse_query c store ("not has-started:" ++ F) =
      .ok (Query.qnot (Query.has_started F), store)) ∧
    (∀ p : Participant, qMatches c p (Query.qnot (Query.has_started F)) =
      !(p.flow_sessions.any (fun fs => fs.flow_id == F && fs.course == c))) ∧
    (parse_query c store ("not not has-started:" ++ F) =
      .ok (Query.qnot (Query.qnot (Query.has_started F)), store)) ∧
    (∀ p : Participant, qMatches c p (Query.qnot (Query.qnot (Query.has_started F))) =
      qMatches c p (Query.has_started F)) ∧
    (parse_query c store ("not has-submitted:" ++ F) =
      .ok (Query.qnot (Query.has_submitted F), store)) ∧
    (∀ p : Participant, qMatches c p (Query.qnot (Query.has_submitted F)) =
      !(p.flow_sessions.any (fun fs =>
          fs.flow_id == F && fs.course == c && fs.in_progress == false))) ∧
    (parse_query c store ("not not has-submitted:" ++ F) =
      .ok (Query.qnot (Query.qnot (Query.has_submitted F)), store)) ∧
    (∀ p : Participant, qMatches c p (Query.qnot (Query.qnot (Query.has_submitted F))) =
      qMatches c p (Query.has_submitted F)) := by
  refine ⟨?_, fun p => rfl, ?_, fun p => Bool.not_not _, ?_, fun p => rfl, ?_,
    fun p => Bool.not_not _⟩
  · unfold parse_query; rw [h1]; rfl
  · unfold parse_query; rw [h2]; rfl
  · unfold parse_query; rw [h3]; rfl
  · unfold parse_query; rw [h4]; rfl

/-- Witness for C2 at the flow id `quiz`. -/
theorem not_of_relational_existence_witness :
    (tokenize ("not has-started:" ++ "quiz") = .ok
      [{ tag := Tag.not, capture := "" }, { tag := Tag.whitespace, capture := " " },
       { tag := Tag.has_started, capture := "quiz" }]) ∧
    (parse_query 7 [] ("not has-started:" ++ "quiz") =
      .ok (Query.qnot (Query.has_started "quiz"), [])) ∧
    (parse_query 7 [] ("not not has-submitted:" ++ "quiz") =
      .ok (Query.qnot (Query.qnot (Query.has_submitted "quiz")), [])) :=
  ⟨rfl,
   (not_of_relational_existence 7 [] "quiz" rfl rfl rfl rfl).1,
   (not_of_relational_existence 7 [] "quiz" rfl rfl rfl rfl).2.2.2.2.2.2.1⟩

/-- C6: compiling a line that references `tagged:T` get-or-creates the tag
`(course, T)` as a side effect of compilation itself — the parse succeeds
(a nonexistent tag name is never an error) and the tag exists afterwards,
even in list-only mode when no bulk operation is applied. -/
theorem tagged_get_or_create (c : Nat) (store : TagStore) (T : String)
    (st : ExecState) (op : Op) (tg : String)
    (htok : tokenize ("tagged:" ++ T) = .ok [{ tag := Tag.tagged, capture := T }])
    (hsplit : splitLines ("tagged:" ++ T) = ["tagged:" ++ T])
    (hstrip : pyStrip ("tagged:" ++ T) = "tagged:" ++ T) :
    (parse_query c store ("tagged:" ++ T) =
      .ok (Query.tags_pk (c, T), (get_or_create c T store).2)) ∧
    (c, T) ∈ (get_or_create c T store).2 ∧
    (query_participations c ("tagged:" ++ T) op tg false st).error = none ∧
    (c, T) ∈ (query_participations c ("tagged:" ++ T) op tg false st).finalState.tags := by
  have hparse : ∀ s : TagStore, parse_query c s ("tagged:" ++ T) =
      .ok (Query.tags_pk (c, T), (get_or_create c T s).2) := by
    intro s
    have hred : parse_query c s ("tagged:" ++ T) =
        .ok (Query.tags_pk (get_or_create c T s).1, (get_or_create c T s).2) := by
      unfold parse_query
      rw [htok]
      rfl
    rw [hred, get_or_create_fst]
  have hne : ("tagged:" ++ T) ≠ "" := parse_query_ne_empty (hparse store)
  have hcomp : compileLines c ["tagged:" ++ T] 0 none st.tags =
      .ok (some (Query.tags_pk (c, T)), (get_or_create c T st.tags).2) :=
    compileLines_one c _ _ _ _ hstrip hne (hparse st.tags)
  refine ⟨hparse store, mem_get_or_create_snd c T store, ?_, ?_⟩
  · unfold query_participations
    rw [hsplit, hcomp]
    rfl
  · unfold query_participations
    rw [hsplit, hcomp]
    show (c, T) ∈ (get_or_create c T st.tags).2
    exact mem_get_or_create_snd c T st.tags

/-- Witness for C6 at the tag name `foo` over an empty store. -/
theorem tagged_get_or_create_witness :
    (tokenize ("tagged:" ++ "foo") = .ok [{ tag := Tag.tagged, capture := "foo" }]) ∧
    (parse_query 2 [] ("tagged:" ++ "foo") =
      .ok (Query.tags_pk (2, "foo"), (get_or_create 2 "foo" []).2)) ∧
    (2, "foo") ∈ (query_participations 2 ("tagged:" ++ "foo") Op.drop "" false
      { tags := [], participants := [] }).finalState.tags :=
  ⟨rfl,
   (tagged_get_or_create 2 [] "foo" { tags := [], participants := [] } Op.drop ""
     rfl (by decide) (by decide)).1,
   (tagged_get_or_create 2 [] "foo" { tags := [], participants := [] } Op.drop ""
     rfl (by decide) (by decide)).2.2.2⟩

/-- C7 counterexample: with no tag named `ghost` in the course, applying
`remove_tag("ghost")` changes the course's set of tags — the operation
get-or-creates the tag it is about to disassociate, contradicting the
claim that the tag set is left unchanged. -/
theorem remove_tag_absent_creates_tag :
    (query_participations 1 "status:active" Op.remove_tag "ghost" true
      { tags := [], participants := [] }).finalState.tags ≠
      ({ tags := [], participants := [] } : ExecState).tags := by decide

/-- C7 as amended: when no tag `(course, name)` exists and no participant
is associated with it, `remove_tag(name)` disassociates nothing — every
participant keeps their tags — but it does create the tag: the course's
tag set grows by exactly `(course, name)`. -/
theorem remove_tag_absent_amended (c : Nat) (name : String) (st : ExecState)
    (habsent : (c, name) ∉ st.tags)
    (hptags : ∀ p ∈ st.participants, (c, name) ∉ p.tags) :
    (query_participations c "status:active" Op.remove_tag name true st).finalState.participants
      = st.participants ∧
    (query_participations c "status:active" Op.remove_tag name true st).finalState.tags
      = st.tags ++ [(c, name)] := by
  have hcomp : compileLines c ["status:active"] 0 none st.tags =
      .ok (some (Query.status "active"), st.tags) :=
    compileLines_one c _ _ _ _ (by decide) (by decide) rfl
  have hgc : get_or_create c name st.tags = ((c, name), st.tags ++ [(c, name)]) := by
    unfold get_or_create
    rw [if_neg (fun hcon => habsent (List.mem_of_elem_eq_true hcon))]
  have hupd : updateMatched c (Query.status "active") (removeTag (c, name))
      st.participants = st.participants := by
    apply map_eq_self_of_mem
    intro p hp
    by_cases hm : (p.course == c && qMatches c p (Query.status "active")) = true
    · rw [if_pos hm]
      show { p with tags := p.tags.filter (fun x => x != (c, name)) } = p
      have : p.tags.filter (fun x => x != (c, name)) = p.tags := by
        apply List.filter_eq_self.mpr
        intro x hx
        simp only [bne_iff_ne, ne_eq]
        intro hcon
        exact hptags p hp (hcon ▸ hx)
      rw [this]
    · rw [if_neg hm]
  constructor
  · unfold query_participations
    rw [show splitLines "status:active" = ["status:active"] from rfl, hcomp]
    show (updateMatched c (Query.status "active")
      (removeTag (get_or_create c name st.tags).1) st.participants) = st.participants
    rw [hgc]
    exact hupd
  · unfold query_participations
    rw [show splitLines "status:active" = ["status:active"] from rfl, hcomp]
    show (get_or_create c name st.tags).2 = st.tags ++ [(c, name)]
    rw [hgc]

/-- Witness for the amended C7 over a one-member roster without the tag. -/
theorem remove_tag_absent_amended_witness :
    ((1, "ghost") ∉ ([] : TagStore)) ∧
    (query_participations 1 "status:active" Op.remove_tag "ghost" true
      { tags := [],
        participants := [{ pk := 1, user_id := 1, email := "a@x", username := "a",
                           role := "student", status := "active", course := 1,
                           tags := [], flow_sessions := [] }] }).finalState.tags =
      [] ++ [(1, "ghost")] :=
  ⟨by decide,
   (remove_tag_absent_amended 1 "ghost"
     { tags := [],
       participants := [{ pk := 1, user_id := 1, email := "a@x", username := "a",
                          role := "student", status := "active", course := 1,
                          tags := [], flow_sessions := [] }] }
     (by decide) (by decide)).2⟩

lemma firstMatch_mem {cs : List Char}
    {table : List (Tag × (List Char → Option (String × List Char)))}
    {t : Tag} {cap : String} {rest : List Char}
    (h : firstMatch cs table = some (t, cap, rest)) :
    ∃ m, (t, m) ∈ table ∧ m cs = some (cap, rest) := by
  induction table with
  | nil => exact absurd h (by simp [firstMatch])
  | cons row rows ih =>
    obtain ⟨t0, m0⟩ := row
    cases hm : m0 cs with
    | some pr =>
      obtain ⟨cap0, rest0⟩ := pr
      rw [firstMatch, hm] at h
      simp only [Option.some.injEq, Prod.mk.injEq] at h
      obtain ⟨rfl, rfl, rfl⟩ := h
      exact ⟨m0, List.mem_cons_self _ _, hm⟩
    | none =>
      rw [firstMatch, hm] at h
      obtain ⟨m, hmem, hcs⟩ := ih h
      exact ⟨m, List.mem_cons_of_mem _ hmem, hcs⟩

lemma id_row_matcher {m : List Char → Option (String × List Char)}
    (h : (Tag.id, m) ∈ _LEX_TABLE) : m = matchCap "id:".toList Char.isDigit := by
  simp only [_LEX_TABLE, List.mem_cons, List.not_mem_nil, or_false,
    Prod.mk.injEq] at h
  rcases h with h | h | h | h | h | h | h | h | h | h | h | h | h | h | h | h <;>
    first
    | exact h
    | exact h.2
    | exact absurd h.1 (by decide)

lemma matchCap_capture {pre : List Char} {cls : Char → Bool} {cs : List Char}
    {cap : String} {rest : List Char}
    (h : matchCap pre cls cs = some (cap, rest)) :
    cap.toList ≠ [] ∧ cap.toList.all cls := by
  unfold matchCap at h
  split at h
  · simp only at h
    split at h
    · exact absurd h (by simp)
    · next hne =>
      obtain ⟨hcap, _⟩ : String.mk ((cs.drop pre.length).takeWhile cls) = cap ∧
          (cs.drop pre.length).drop ((cs.drop pre.length).takeWhile cls).length = rest := by
        have := Option.some.inj h
        exact ⟨congrArg Prod.fst this, congrArg Prod.snd this⟩
      rw [← hcap]
      constructor
      · intro hcon
        have : ((cs.drop pre.length).takeWhile cls).isEmpty = true := by
          rw [show ((cs.drop pre.length).takeWhile cls) = [] from hcon]
          rfl
        exact hne this
      · exact List.all_eq_true.mpr (fun x hx => List.mem_takeWhile_imp hx)
  · exact absurd h (by simp)

lemma lexAll_id_capture :
    ∀ (fuel : Nat) (cs : List Char) (toks : List Token),
      lexAll fuel cs = .ok toks →
      ∀ t ∈ toks, t.tag = Tag.id →
        t.capture.toList ≠ [] ∧ t.capture.toList.all Char.isDigit := by
  intro fuel
  induction fuel with
  | zero =>
    intro cs toks h t ht htag
    cases cs with
    | nil =>
      obtain rfl : ([] : List Token) = toks := Except.ok.inj h
      exact absurd ht (List.not_mem_nil t)
    | cons c cs' => exact absurd h (by simp [lexAll])
  | succ n ih =>
    intro cs toks h t ht htag
    cases cs with
    | nil =>
      obtain rfl : ([] : List Token) = toks := Except.ok.inj h
      exact absurd ht (List.not_mem_nil t)
    | cons c cs' =>
      simp only [lexAll] at h
      cases hstep : lexStep (c :: cs') with
      | none => rw [hstep] at h; exact absurd h (by simp)
      | some tr =>
        obtain ⟨tg, cap, rest⟩ := tr
        rw [hstep] at h
        dsimp only at h
        cases hrec : lexAll n rest with
        | error e => rw [hrec] at h; exact absurd h (by simp)
        | ok toks' =>
          rw [hrec] at h
          dsimp only at h
          obtain rfl : ({ tag := tg, capture := cap } : Token) :: toks' = toks :=
            Except.ok.inj h
          rcases List.mem_cons.mp ht with rfl | hmem
          · have htg : tg = Tag.id := htag
            subst htg
            obtain ⟨m, hmem2, hm⟩ := firstMatch_mem hstep
            rw [id_row_matcher hmem2] at hm
            exact matchCap_capture hm
          · exact ih rest toks' hrec t hmem htag

/-- C9: every `id:` token the lexer produces captures a nonempty string of
decimal digits (the pattern is `id:([0-9]+)`), so the `int()` conversion
`parse_terminal` applies to that capture always succeeds. -/
theorem id_capture_digits_int_total (s : String) (toks : List Token)
    (htok : tokenize s = .ok toks) :
    ∀ t ∈ toks, t.tag = Tag.id →
      t.capture.toList ≠ [] ∧ t.capture.toList.all Char.isDigit ∧
      (strToNat t.capture).isSome = true := by
  intro t ht htag
  obtain ⟨hne, hdig⟩ := lexAll_id_capture _ _ _ htok t ht htag
  refine ⟨hne, hdig, ?_⟩
  unfold strToNat
  rw [if_pos ⟨hne, hdig⟩]
  rfl

/-- Witness for C9 at the input `id:123`. -/
theorem id_capture_digits_int_total_witness :
    (tokenize "id:123" = .ok [{ tag := Tag.id, capture := "123" }]) ∧
    (strToNat (("123" : String)) ).isSome = true :=
  ⟨rfl,
   (id_capture_digits_int_total "id:123" [{ tag := Tag.id, capture := "123" }] rfl
     { tag := Tag.id, capture := "123" } (List.mem_singleton.mpr rfl) rfl).2.2⟩
